import Mathlib

/-!
# Verification of the InfoSpace Item Repository, Metadata Codec, Blob Gateway and File Delivery

A shallow embedding of the server core of the InfoSpace repository:

* the catalog row type (`Item`, from `shared/schema.ts`: table `items`),
* `DatabaseStorage.getItems` / `getItem` / `getItemByObjectKey` / `createItem` /
  `updateItem` / `deleteItem` (the owner-scoped storage implementation that the
  route files import: the file also containing `getItemByObjectKey` and the
  blob-delete cascade),
* the blob-response normalization and the file-serving route
  (`app.get('/api/files/*')`),
* the metadata decode sites (`ItemCard.handleCopy`, `ContactModal.useEffect`),
* the object-storage upload route (`app.post('/api/items/file')`).

Modelling conventions:

* The Postgres table is a `List Item` in row-insertion order; `SELECT` without
  `ORDER BY` yields that order, and `ORDER BY created_at` is modelled as a
  stable ascending sort on that order (ties between equal keys keep table
  order).  Timestamps are `Nat`.
* SQL `ILIKE` is modelled with its real pattern semantics: `%` and `_` are
  wildcards, `\` escapes the following pattern character, and literal
  characters compare case-insensitively.  Case folding is ASCII (`A`-`Z`),
  a documented simplification of locale-dependent folding.
* JavaScript exceptions are `Except`; `try`/`catch` is a `match` on the
  `Except`.  Database I/O failure is an `Except.error` input to the wrappers
  that mirror the `try`/`catch` blocks.
* JSON texts are produced by a model of `JSON.stringify` restricted to the
  shapes the server writes, and consumed by an executable model of
  `JSON.parse` (objects, arrays, strings with the standard escapes, booleans,
  `null`, and integer-valued numbers; numbers keep only their integer part,
  which no stored metadata exercises).
-/

namespace InfoSpace

/-- A catalog row of table `items` (shared/schema.ts).  `type` is the text
column holding one of `file`/`note`/`contact`/`link`; `createdAt`/`updatedAt`
are timestamps modelled as `Nat`. -/
structure Item where
  id : Nat
  userId : String
  title : String
  content : Option String
  type : String
  fileUrl : Option String
  fileName : Option String
  fileSize : Option Int
  mimeType : Option String
  tags : List String
  metadata : Option String
  createdAt : Nat
  updatedAt : Nat
deriving DecidableEq, Repr

/-- ASCII lower-casing of one character, the case folding used to model
`ILIKE` and `toLowerCase` on the data these claims touch. -/
def lowerChar (c : Char) : Char :=
  if 'A' ≤ c ∧ c ≤ 'Z' then Char.ofNat (c.toNat + 32) else c

/-- SQL `LIKE`/`ILIKE` pattern matching over characters, case-insensitive on
literal characters: `%` matches any run, `_` one character, `\` escapes the
next pattern character (a trailing `\` matches nothing, standing in for the
error Postgres raises there). -/
def ilikeMatch : List Char → List Char → Bool
  | [], t => t.isEmpty
  | p :: ps, t =>
    if p = '%' then
      t.tails.any (fun s => ilikeMatch ps s)
    else if p = '_' then
      match t with
      | [] => false
      | _ :: ts => ilikeMatch ps ts
    else if p = '\\' then
      match ps with
      | [] => false
      | q :: ps' =>
        match t with
        | [] => false
        | c :: ts => if lowerChar c = lowerChar q then ilikeMatch ps' ts else false
    else
      match t with
      | [] => false
      | c :: ts => if lowerChar c = lowerChar p then ilikeMatch ps ts else false

/-- The specification-side predicate: `q` is a case-insensitive initial
segment of `t`. -/
def prefixCI : List Char → List Char → Bool
  | [], _ => true
  | _ :: _, [] => false
  | p :: ps, c :: ts => if lowerChar c = lowerChar p then prefixCI ps ts else false

/-- The specification-side predicate: `t` contains `q` case-insensitively as a
contiguous substring. -/
def containsCI : List Char → List Char → Bool
  | q, [] => prefixCI q []
  | q, c :: ts => prefixCI q (c :: ts) || containsCI q ts

/-- `ilike(column, pat)` on a nullable text column: SQL `NULL ILIKE pat` is
not true, so an absent value never matches. -/
def ilikeOpt (pat : String) : Option String → Bool
  | none => false
  | some s => ilikeMatch pat.data s.data

/-- The search clause of `DatabaseStorage.getItems`:
`or(ilike(title, %q%), ilike(content, %q%), ilike(fileName, %q%))`. -/
def searchCond (q : String) (it : Item) : Bool :=
  ilikeMatch ("%" ++ q ++ "%").data it.title.data ||
  ilikeOpt ("%" ++ q ++ "%") it.content ||
  ilikeOpt ("%" ++ q ++ "%") it.fileName

/-- The conjunction of `whereConditions` built by `DatabaseStorage.getItems`:
owner equality always; type equality when the `type` parameter is truthy and
not the sentinel `all`; the search clause when `searchQuery` is truthy
(`none` and the empty string are the falsy query parameters). -/
def rowPred (userId : String) (searchQuery ty : Option String) (it : Item) : Bool :=
  decide (it.userId = userId) &&
  (match ty with
   | none => true
   | some t => if t ≠ "" ∧ t ≠ "all" then decide (it.type = t) else true) &&
  (match searchQuery with
   | none => true
   | some q => if q ≠ "" then searchCond q it else true)

/-- Stable insertion of `x` into `l` after every element whose `createdAt` is
strictly smaller (so equal keys keep their relative order). -/
def insertAsc (x : Item) : List Item → List Item
  | [] => [x]
  | y :: ys => if y.createdAt < x.createdAt then y :: insertAsc x ys else x :: y :: ys

/-- Stable ascending sort by `createdAt`, the model of
`ORDER BY created_at`. -/
def sortAsc : List Item → List Item
  | [] => []
  | x :: xs => insertAsc x (sortAsc xs)

/-- `DatabaseStorage.getItems(userId, searchQuery, type)`: filter by the
`where` conditions, `ORDER BY created_at`, then `results.reverse()`. -/
def getItems (rows : List Item) (userId : String) (searchQuery ty : Option String) :
    List Item :=
  (sortAsc (rows.filter (rowPred userId searchQuery ty))).reverse

theorem mem_insertAsc {a x : Item} {l : List Item} :
    a ∈ insertAsc x l ↔ a = x ∨ a ∈ l := by
  induction l with
  | nil => simp [insertAsc]
  | cons y ys ih =>
    by_cases h : y.createdAt < x.createdAt
    · simp [insertAsc, h, ih]
      tauto
    · simp [insertAsc, h]

theorem mem_sortAsc {a : Item} {l : List Item} : a ∈ sortAsc l ↔ a ∈ l := by
  induction l with
  | nil => simp [sortAsc]
  | cons x xs ih => simp [sortAsc, mem_insertAsc, ih]

theorem mem_getItems {a : Item} {rows : List Item} {u : String}
    {q ty : Option String} :
    a ∈ getItems rows u q ty ↔ a ∈ rows ∧ rowPred u q ty a = true := by
  simp [getItems, mem_sortAsc, List.mem_filter]

/-- A catalog row with neutral field values, the base of the concrete rows
used in witnesses and counterexamples. -/
def baseItem : Item :=
  { id := 1, userId := "u", title := "t", content := none, type := "note",
    fileUrl := none, fileName := none, fileSize := none, mimeType := none,
    tags := [], metadata := none, createdAt := 0, updatedAt := 0 }

theorem pairwise_le_insertAsc {x : Item} {l : List Item}
    (h : l.Pairwise (fun a b => a.createdAt ≤ b.createdAt)) :
    (insertAsc x l).Pairwise (fun a b => a.createdAt ≤ b.createdAt) := by
  induction l with
  | nil => simp [insertAsc]
  | cons y ys ih =>
    rcases List.pairwise_cons.mp h with ⟨hy, hys⟩
    by_cases hlt : y.createdAt < x.createdAt
    · simp only [insertAsc, if_pos hlt]
      refine List.pairwise_cons.mpr ⟨?_, ih hys⟩
      intro z hz
      rcases mem_insertAsc.mp hz with rfl | hz'
      · exact Nat.le_of_lt hlt
      · exact hy z hz'
    · simp only [insertAsc, if_neg hlt]
      refine List.pairwise_cons.mpr ⟨?_, h⟩
      intro z hz
      rcases List.mem_cons.mp hz with rfl | hz'
      · exact Nat.le_of_not_lt hlt
      · exact Nat.le_trans (Nat.le_of_not_lt hlt) (hy z hz')

theorem pairwise_le_sortAsc (l : List Item) :
    (sortAsc l).Pairwise (fun a b => a.createdAt ≤ b.createdAt) := by
  induction l with
  | nil => simp [sortAsc]
  | cons x xs ih => exact pairwise_le_insertAsc ih

theorem filter_insertAsc (x : Item) (l : List Item) (t : Nat) :
    (insertAsc x l).filter (fun it => decide (it.createdAt = t)) =
      if x.createdAt = t then x :: l.filter (fun it => decide (it.createdAt = t))
      else l.filter (fun it => decide (it.createdAt = t)) := by
  induction l with
  | nil => by_cases h : x.createdAt = t <;> simp [insertAsc, h]
  | cons y ys ih =>
    simp only [insertAsc]
    by_cases hlt : y.createdAt < x.createdAt
    · rw [if_pos hlt, List.filter_cons]
      by_cases hx : x.createdAt = t
      · have hy : ¬ y.createdAt = t := by omega
        simp [hy, hx, ih]
      · by_cases hy : y.createdAt = t <;> simp [hx, hy, ih]
    · rw [if_neg hlt, List.filter_cons, List.filter_cons]
      by_cases hx : x.createdAt = t <;> by_cases hy : y.createdAt = t <;>
        simp [hx, hy]

theorem filter_sortAsc (l : List Item) (t : Nat) :
    (sortAsc l).filter (fun it => decide (it.createdAt = t)) =
      l.filter (fun it => decide (it.createdAt = t)) := by
  induction l with
  | nil => rfl
  | cons x xs ih =>
    by_cases hx : x.createdAt = t <;> simp [sortAsc, filter_insertAsc, hx, ih]

/-- C1 (confirmed): ownership scoping of `list`.  Every item returned by
`getItems` carries the requesting owner's id, and consequently an item
stored under a distinct owner `a` is never returned by `getItems` for
owner `b`, whatever the search and type filters. -/
theorem getItems_owner_scoped :
    (∀ (rows : List Item) (u : String) (q ty : Option String) (it : Item),
        it ∈ getItems rows u q ty → it.userId = u) ∧
    (∀ (rows : List Item) (a b : String) (q ty : Option String) (it : Item),
        a ≠ b → it.userId = a → it ∉ getItems rows b q ty) := by
  have h1 : ∀ (rows : List Item) (u : String) (q ty : Option String) (it : Item),
      it ∈ getItems rows u q ty → it.userId = u := by
    intro rows u q ty it hmem
    have h := (mem_getItems.mp hmem).2
    simp only [rowPred, Bool.and_eq_true, decide_eq_true_eq] at h
    exact h.1.1
  refine ⟨h1, ?_⟩
  intro rows a b q ty it hab hua hmem
  exact hab (hua ▸ h1 rows b q ty it hmem)

/-- C1 witness: a concrete item of owner `alice` is returned to `alice` and
not to `bob`. -/
theorem getItems_owner_scoped_witness :
    ({ baseItem with userId := "alice" } : Item).userId = "alice" ∧
      { baseItem with userId := "alice" } ∉
        getItems [{ baseItem with userId := "alice" }] "bob" none none := by
  refine ⟨rfl, ?_⟩
  exact getItems_owner_scoped.2 [{ baseItem with userId := "alice" }]
    "alice" "bob" none none { baseItem with userId := "alice" } (by decide) rfl

/-- C6 (corrected, counterexample): with two distinct rows of equal
`createdAt` inserted in the order `first, second`, `getItems` returns them
as `second, first` — ties come out in reverse insertion order, refuting the
claimed stable newest-first order that preserves insertion order among
ties. -/
theorem getItems_tie_order_counterexample :
    getItems [{ baseItem with id := 1, createdAt := 5 },
              { baseItem with id := 2, createdAt := 5 }] "u" none none =
      [{ baseItem with id := 2, createdAt := 5 },
       { baseItem with id := 1, createdAt := 5 }] ∧
    ({ baseItem with id := 1, createdAt := 5 } : Item).createdAt =
      ({ baseItem with id := 2, createdAt := 5 } : Item).createdAt ∧
    ({ baseItem with id := 1, createdAt := 5 } : Item) ≠
      { baseItem with id := 2, createdAt := 5 } := by
  refine ⟨?_, rfl, by decide⟩
  rfl

/-- C6 (corrected, amended): every `getItems` result is sorted in
non-increasing `createdAt` order, and the rows sharing any fixed
`createdAt` value appear in the *reverse* of their insertion order among
the filtered rows (the code sorts ascending and reverses the whole
list). -/
theorem getItems_order :
    ∀ (rows : List Item) (u : String) (q ty : Option String),
      (getItems rows u q ty).Pairwise (fun a b => b.createdAt ≤ a.createdAt) ∧
      ∀ t : Nat,
        (getItems rows u q ty).filter (fun it => decide (it.createdAt = t)) =
          ((rows.filter (rowPred u q ty)).filter
              (fun it => decide (it.createdAt = t))).reverse := by
  intro rows u q ty
  constructor
  · rw [getItems, List.pairwise_reverse]
    exact pairwise_le_sortAsc (rows.filter (rowPred u q ty))
  · intro t
    rw [getItems, List.filter_reverse, filter_sortAsc]

/-- No character of the list is a LIKE wildcard (`%`, `_`) or the LIKE
escape character (`\`). -/
def plainChars : List Char → Bool
  | [] => true
  | c :: cs => if c = '%' ∨ c = '_' ∨ c = '\\' then false else plainChars cs

theorem tails_any_isEmpty : ∀ t : List Char, t.tails.any (fun s => s.isEmpty) = true := by
  intro t
  induction t with
  | nil => rfl
  | cons c ts ih => simp [List.tails, ih]

theorem ilike_nil (t : List Char) : ilikeMatch [] t = t.isEmpty := by
  rw [ilikeMatch.eq_def]

theorem ilike_pct (ps t : List Char) :
    ilikeMatch ('%' :: ps) t = t.tails.any (fun s => ilikeMatch ps s) := by
  rw [ilikeMatch.eq_def]
  simp

theorem ilike_lit_nil (a : Char) (ps : List Char)
    (h1 : a ≠ '%') (h2 : a ≠ '_') (h3 : a ≠ '\\') :
    ilikeMatch (a :: ps) [] = false := by
  rw [ilikeMatch.eq_def]
  simp [h1, h2, h3]

theorem ilike_lit_cons (a c : Char) (ps ts : List Char)
    (h1 : a ≠ '%') (h2 : a ≠ '_') (h3 : a ≠ '\\') :
    ilikeMatch (a :: ps) (c :: ts) =
      if lowerChar c = lowerChar a then ilikeMatch ps ts else false := by
  rw [ilikeMatch.eq_def]
  simp [h1, h2, h3]

theorem ilike_plain_pct : ∀ q : List Char, plainChars q = true →
    ∀ t, ilikeMatch (q ++ ['%']) t = prefixCI q t := by
  intro q
  induction q with
  | nil =>
    intro _ t
    simp only [List.nil_append]
    rw [ilike_pct]
    simp [ilike_nil, prefixCI, tails_any_isEmpty]
  | cons a q' ih =>
    intro hq t
    have hbad : ¬(a = '%' ∨ a = '_' ∨ a = '\\') := by
      intro h
      simp only [plainChars, if_pos h] at hq
      exact Bool.false_ne_true hq
    have hq' : plainChars q' = true := by
      simpa only [plainChars, if_neg hbad] using hq
    push_neg at hbad
    obtain ⟨h1, h2, h3⟩ := hbad
    cases t with
    | nil =>
      rw [List.cons_append, ilike_lit_nil a _ h1 h2 h3]
      simp [prefixCI]
    | cons c ts =>
      rw [List.cons_append, ilike_lit_cons a c _ ts h1 h2 h3]
      by_cases hc : lowerChar c = lowerChar a <;> simp [prefixCI, hc, ih hq']

theorem containsCI_eq_tails : ∀ q t : List Char,
    containsCI q t = t.tails.any (fun s => prefixCI q s) := by
  intro q t
  induction t with
  | nil => simp [containsCI, List.tails]
  | cons c ts ih => simp [containsCI, List.tails, ih]

theorem ilike_contains (q : List Char) (hq : plainChars q = true) :
    ∀ t, ilikeMatch ('%' :: (q ++ ['%'])) t = containsCI q t := by
  intro t
  rw [ilike_pct, containsCI_eq_tails]
  simp only [ilike_plain_pct q hq]

theorem pat_data (s : String) :
    ("%" ++ s ++ "%").data = '%' :: (s.data ++ ['%']) := by
  simp [String.data_append]

/-- The specification-side search predicate: some of `title`, `content`,
`fileName` contains the search text case-insensitively as a contiguous
substring (absent optional fields never match). -/
def specSearchCond (q : String) (it : Item) : Bool :=
  containsCI q.data it.title.data ||
  (match it.content with
   | none => false
   | some s => containsCI q.data s.data) ||
  (match it.fileName with
   | none => false
   | some s => containsCI q.data s.data)

/-- The specification-side type filter: an absent filter or the sentinel
`all` is no restriction, any other value restricts to that `type` (the code
additionally treats the empty string as absent, which the specification
leaves to the falsiness of the query parameter). -/
def specTypeOk (ty : Option String) (it : Item) : Bool :=
  match ty with
  | none => true
  | some t => if t ≠ "" ∧ t ≠ "all" then decide (it.type = t) else true

theorem searchCond_eq_spec (s : String) (hplain : plainChars s.data = true)
    (it : Item) : searchCond s it = specSearchCond s it := by
  cases hc : it.content <;> cases hf : it.fileName <;>
    simp [searchCond, specSearchCond, ilikeOpt, hc, hf, pat_data,
      ilike_contains s.data hplain]

theorem rowPred_some_search (u s : String) (ty : Option String) (it : Item)
    (hs : s ≠ "") :
    rowPred u (some s) ty it =
      (decide (it.userId = u) && specTypeOk ty it && searchCond s it) := by
  simp [rowPred, specTypeOk, hs]

/-- C5 (corrected, amended): for a non-empty search text `s` free of LIKE
wildcard and escape characters, `getItems` under owner `u` returns exactly
the stored rows of owner `u` that pass the type filter and whose `title`,
`content` or `fileName` contains `s` case-insensitively (substring match,
the three fields combined by OR, combined with the type filter by AND).
For `s` containing `%`, `_` or `\` the match instead follows SQL ILIKE
pattern semantics. -/
theorem getItems_search_semantics :
    ∀ (rows : List Item) (u s : String) (ty : Option String) (it : Item),
      plainChars s.data = true → s ≠ "" →
      (it ∈ getItems rows u (some s) ty ↔
        it ∈ rows ∧ it.userId = u ∧ specTypeOk ty it = true ∧
          specSearchCond s it = true) := by
  intro rows u s ty it hplain hs
  rw [mem_getItems, rowPred_some_search u s ty it hs,
    searchCond_eq_spec s hplain it]
  simp [and_assoc]

/-- C5 witness: an item titled `Notes` is returned for the plain search text
`ote`, by the amended characterization. -/
theorem getItems_search_semantics_witness :
    { baseItem with title := "Notes" } ∈
      getItems [{ baseItem with title := "Notes" }] "u" (some "ote") none :=
  (getItems_search_semantics [{ baseItem with title := "Notes" }] "u" "ote"
      none { baseItem with title := "Notes" } (by decide) (by decide)).mpr
    ⟨by decide, rfl, by decide, by decide⟩

/-- C5 (corrected, counterexample): for the search text `a%b`, which contains
a LIKE wildcard, the item titled `ab` is returned although none of its
searched fields contains the string `a%b` — the code applies ILIKE pattern
semantics, not literal substring containment, refuting the claim for
arbitrary search texts. -/
theorem getItems_search_counterexample :
    getItems [{ baseItem with title := "ab" }] "u" (some "a%b") none =
      [{ baseItem with title := "ab" }] ∧
    specSearchCond "a%b" { baseItem with title := "ab" } = false := by
  exact ⟨by decide, by decide⟩

/-- A partial update draft, mirroring `Partial<InsertItem>`
(`insertItemSchema` = the item columns without `id`, `userId`, `createdAt`,
`updatedAt`).  The outer `Option` is field presence in the draft; for
nullable columns the inner `Option` is the SQL null.  `userId` is absent
from the type, exactly as in `InsertItem`. -/
structure UpdateDraft where
  title : Option String := none
  content : Option (Option String) := none
  type : Option String := none
  fileUrl : Option (Option String) := none
  fileName : Option (Option String) := none
  fileSize : Option (Option Int) := none
  mimeType : Option (Option String) := none
  tags : Option (List String) := none
  metadata : Option (Option String) := none
deriving DecidableEq, Repr

/-- The column assignment performed by `updateItem`'s
`.set({...updateData, updatedAt: new Date()})`: every field present in the
draft overwrites the stored one — including `type` — and `updatedAt` is set
to the current time. -/
def applyDraft (d : UpdateDraft) (r : Item) (now : Nat) : Item :=
  { r with
    title := d.title.getD r.title,
    content := d.content.getD r.content,
    type := d.type.getD r.type,
    fileUrl := d.fileUrl.getD r.fileUrl,
    fileName := d.fileName.getD r.fileName,
    fileSize := d.fileSize.getD r.fileSize,
    mimeType := d.mimeType.getD r.mimeType,
    tags := d.tags.getD r.tags,
    metadata := d.metadata.getD r.metadata,
    updatedAt := now }

/-- `DatabaseStorage.updateItem(id, updateData)`: `UPDATE items SET
{...updateData, updatedAt: now} WHERE id = id RETURNING *`; the returned
`Option Item` is the first returned row (`undefined` when no row
matched). -/
def updateItem (rows : List Item) (id : Nat) (d : UpdateDraft) (now : Nat) :
    Option Item × List Item :=
  ((rows.find? (fun r => r.id == id)).map (fun r => applyDraft d r now),
   rows.map (fun r => if r.id = id then applyDraft d r now else r))

/-- C4 (corrected, counterexample): updating a `note` item with a draft
whose `type` field is `file` silently changes the stored `type` — the code
neither rejects nor ignores a `type` field in the draft, refuting the
claimed immutability of `type` under `update`. -/
theorem updateItem_type_change_counterexample :
    (updateItem [baseItem] 1 { type := some "file" } 9).1 =
      some { baseItem with type := "file", updatedAt := 9 } ∧
    baseItem.type = "note" := by
  exact ⟨by decide, rfl⟩

/-- C4 (corrected, amended): `update` never changes `ownerId` (the draft
type has no such field); it leaves `type` unchanged exactly when the draft
does not supply a `type` (a supplied `type` silently replaces the stored
one); it always sets `updatedAt` to the update time, which is `≥` the
previous `updatedAt` whenever the clock has not gone backwards. -/
theorem updateItem_invariants :
    ∀ (rows : List Item) (id : Nat) (d : UpdateDraft) (now : Nat) (old : Item),
      rows.find? (fun r => r.id == id) = some old →
      (updateItem rows id d now).1 = some (applyDraft d old now) ∧
      (applyDraft d old now).userId = old.userId ∧
      (d.type = none → (applyDraft d old now).type = old.type) ∧
      (applyDraft d old now).updatedAt = now ∧
      (old.updatedAt ≤ now → old.updatedAt ≤ (applyDraft d old now).updatedAt) := by
  intro rows id d now old hfind
  refine ⟨?_, rfl, ?_, rfl, ?_⟩
  · simp [updateItem, hfind]
  · intro hnone
    simp [applyDraft, hnone]
  · intro h
    simpa [applyDraft] using h

/-- C4 witness: the amended invariants evaluated on a concrete one-row
catalog and a draft updating only the title. -/
theorem updateItem_invariants_witness :
    (updateItem [baseItem] 1 { title := some "t2" } 3).1 =
      some (applyDraft { title := some "t2" } baseItem 3) ∧
    (applyDraft { title := some "t2" } baseItem 3).userId = baseItem.userId ∧
    (({ title := some "t2" } : UpdateDraft).type = none →
      (applyDraft { title := some "t2" } baseItem 3).type = baseItem.type) ∧
    (applyDraft { title := some "t2" } baseItem 3).updatedAt = 3 ∧
    (baseItem.updatedAt ≤ 3 →
      baseItem.updatedAt ≤ (applyDraft { title := some "t2" } baseItem 3).updatedAt) :=
  updateItem_invariants [baseItem] 1 { title := some "t2" } 3 baseItem (by decide)

/-- The opening brace character. -/
def lbrace : Char := Char.ofNat 123

/-- The closing brace character. -/
def rbrace : Char := Char.ofNat 125

/-- A JavaScript value as observed by the server code: JSON values plus
`undefined` (absent properties) and Node byte buffers. -/
inductive JsVal where
  | null
  | undef
  | bool (b : Bool)
  | num (n : Int)
  | str (s : String)
  | buf (bs : List Nat)
  | arr (xs : List JsVal)
  | obj (fs : List (String × JsVal))

/-- JavaScript truthiness for the modelled values. -/
def truthy : JsVal → Bool
  | .null => false
  | .undef => false
  | .bool b => b
  | .num n => decide (n ≠ 0)
  | .str s => decide (s ≠ "")
  | .buf _ => true
  | .arr _ => true
  | .obj _ => true

/-- `typeof v === 'object'` (true for `null`, buffers, arrays, objects). -/
def typeofObject : JsVal → Bool
  | .null => true
  | .buf _ => true
  | .arr _ => true
  | .obj _ => true
  | _ => false

/-- The `in` operator on the modelled values: property presence on plain
objects (arrays and buffers have no named properties we model). -/
def hasField (v : JsVal) (k : String) : Bool :=
  match v with
  | .obj fs => fs.any (fun p => p.1 == k)
  | _ => false

/-- Property access `v[k]`, `undefined` when absent or not an object. -/
def getField (v : JsVal) (k : String) : JsVal :=
  match v with
  | .obj fs =>
    match fs.find? (fun p => p.1 == k) with
    | some p => p.2
    | none => .undef
  | _ => .undef

def skipWs : List Char → List Char
  | [] => []
  | c :: cs => if c = ' ' ∨ c = '\n' ∨ c = '\t' ∨ c = '\r' then skipWs cs else c :: cs

def hexVal (c : Char) : Option Nat :=
  if '0' ≤ c ∧ c ≤ '9' then some (c.toNat - 48)
  else if 'a' ≤ c ∧ c ≤ 'f' then some (c.toNat - 87)
  else if 'A' ≤ c ∧ c ≤ 'F' then some (c.toNat - 55)
  else none

/-- Body of a JSON string literal after the opening quote: the decoded
characters and the input after the closing quote; fails on an unterminated
string, a bad escape, or a raw control character, as `JSON.parse` does. -/
def parseStrAux : List Char → List Char → Option (List Char × List Char)
  | _, [] => none
  | acc, c :: cs =>
    if c = '"' then some (acc.reverse, cs)
    else if c = '\\' then
      match cs with
      | [] => none
      | e :: cs' =>
        if e = '"' then parseStrAux ('"' :: acc) cs'
        else if e = '\\' then parseStrAux ('\\' :: acc) cs'
        else if e = '/' then parseStrAux ('/' :: acc) cs'
        else if e = 'n' then parseStrAux ('\n' :: acc) cs'
        else if e = 'r' then parseStrAux ('\r' :: acc) cs'
        else if e = 't' then parseStrAux ('\t' :: acc) cs'
        else if e = 'b' then parseStrAux (Char.ofNat 8 :: acc) cs'
        else if e = 'f' then parseStrAux (Char.ofNat 12 :: acc) cs'
        else if e = 'u' then
          match cs' with
          | h1 :: h2 :: h3 :: h4 :: cs2 =>
            match hexVal h1, hexVal h2, hexVal h3, hexVal h4 with
            | some a, some b, some c2, some d =>
              parseStrAux (Char.ofNat (((a * 16 + b) * 16 + c2) * 16 + d) :: acc) cs2
            | _, _, _, _ => none
          | _ => none
        else none
    else if c.toNat < 32 then none
    else parseStrAux (c :: acc) cs

def takeDigits : List Char → List Char × List Char
  | [] => ([], [])
  | c :: cs =>
    if '0' ≤ c ∧ c ≤ '9' then
      let p := takeDigits cs
      (c :: p.1, p.2)
    else ([], c :: cs)

def digitsToNat (ds : List Char) : Nat :=
  ds.foldl (fun a c => a * 10 + (c.toNat - 48)) 0

/-- A JSON number; the fractional part and exponent are consumed but
discarded (numbers are modelled by their integer part, which no stored
metadata exercises). -/
def parseNum (cs : List Char) : Option (Int × List Char) :=
  let (neg, cs1) :=
    match cs with
    | '-' :: rest => (true, rest)
    | _ => (false, cs)
  match takeDigits cs1 with
  | ([], _) => none
  | (ds, rest) =>
    let rest2 :=
      match rest with
      | '.' :: r =>
        match takeDigits r with
        | ([], _) => '.' :: r
        | (_, r') => r'
      | _ => rest
    let rest3 :=
      match rest2 with
      | 'e' :: r => (takeDigits (match r with | '-' :: r' => r' | '+' :: r' => r' | _ => r)).2
      | 'E' :: r => (takeDigits (match r with | '-' :: r' => r' | '+' :: r' => r' | _ => r)).2
      | _ => rest2
    some (if neg then -(digitsToNat ds : Int) else (digitsToNat ds : Int), rest3)

mutual

/-- Fuel-indexed model of `JSON.parse`: one JSON value and the remaining
input. -/
def parseVal : Nat → List Char → Option (JsVal × List Char)
  | 0, _ => none
  | fuel + 1, cs =>
    match skipWs cs with
    | [] => none
    | c :: rest =>
      if c = lbrace then
        match skipWs rest with
        | [] => none
        | c2 :: r2 =>
          if c2 = rbrace then some (.obj [], r2)
          else parseMembers fuel (c2 :: r2) []
      else if c = '[' then
        match skipWs rest with
        | [] => none
        | c2 :: r2 =>
          if c2 = ']' then some (.arr [], r2)
          else parseItems fuel (c2 :: r2) []
      else if c = '"' then
        (parseStrAux [] rest).map (fun p => (.str (String.mk p.1), p.2))
      else if c = 't' then
        match rest with
        | 'r' :: 'u' :: 'e' :: r => some (.bool true, r)
        | _ => none
      else if c = 'f' then
        match rest with
        | 'a' :: 'l' :: 's' :: 'e' :: r => some (.bool false, r)
        | _ => none
      else if c = 'n' then
        match rest with
        | 'u' :: 'l' :: 'l' :: r => some (.null, r)
        | _ => none
      else
        match parseNum (c :: rest) with
        | some (n, r) => some (.num n, r)
        | none => none

/-- The members of a JSON object after the opening brace (for a non-empty
object). -/
def parseMembers : Nat → List Char → List (String × JsVal) →
    Option (JsVal × List Char)
  | 0, _, _ => none
  | fuel + 1, cs, acc =>
    match cs with
    | '"' :: rest =>
      match parseStrAux [] rest with
      | some (k, r1) =>
        match skipWs r1 with
        | ':' :: r2 =>
          match parseVal fuel r2 with
          | some (v, r3) =>
            (match skipWs r3 with
             | ',' :: r4 => parseMembers fuel (skipWs r4) (acc ++ [(String.mk k, v)])
             | c2 :: r4 =>
               if c2 = rbrace then some (.obj (acc ++ [(String.mk k, v)]), r4)
               else none
             | [] => none)
          | none => none
        | _ => none
      | none => none
    | _ => none

/-- The elements of a JSON array after the opening bracket (for a non-empty
array). -/
def parseItems : Nat → List Char → List JsVal → Option (JsVal × List Char)
  | 0, _, _ => none
  | fuel + 1, cs, acc =>
    match parseVal fuel cs with
    | some (v, r1) =>
      match skipWs r1 with
      | ',' :: r2 => parseItems fuel (skipWs r2) (acc ++ [v])
      | ']' :: r2 => some (.arr (acc ++ [v]), r2)
      | _ => none
    | none => none

end

/-- `JSON.parse`: total model, `Except.error` standing for the thrown
`SyntaxError`. -/
def jsonParse (s : String) : Except Unit JsVal :=
  match parseVal (s.length + 1) s.data with
  | some (v, rest) => if (skipWs rest).isEmpty then .ok v else .error ()
  | none => .error ()

def hexDigitChar (n : Nat) : Char :=
  if n < 10 then Char.ofNat (48 + n) else Char.ofNat (87 + n)

/-- The escaping `JSON.stringify` applies to one string character. -/
def jsonEscapeChar (c : Char) : List Char :=
  if c = '"' then ['\\', '"']
  else if c = '\\' then ['\\', '\\']
  else if c = '\n' then ['\\', 'n']
  else if c = '\r' then ['\\', 'r']
  else if c = '\t' then ['\\', 't']
  else if c = Char.ofNat 8 then ['\\', 'b']
  else if c = Char.ofNat 12 then ['\\', 'f']
  else if c.toNat < 32 then
    ['\\', 'u', '0', '0', hexDigitChar (c.toNat / 16), hexDigitChar (c.toNat % 16)]
  else [c]

def jsonEscapeList : List Char → List Char
  | [] => []
  | c :: cs => jsonEscapeChar c ++ jsonEscapeList cs

def jsonEscape (s : String) : String := String.mk (jsonEscapeList s.data)

/-- `JSON.stringify({ objectKey: k })`, the metadata text the object-storage
upload route stores. -/
def stringifyObjectKey (k : String) : String :=
  "\x7b\"objectKey\":\"" ++ jsonEscape k ++ "\"\x7d"

/-- The inner recovery step of `deleteItem`: `JSON.parse(item.metadata)`
followed by the truthiness test of `metadata.objectKey`.  A parse failure is
caught by the surrounding `catch`, yielding no key; a non-string `objectKey`
(which no create path writes) is not modelled as a recoverable key. -/
def recoverObjectKey (metadata : String) : Option String :=
  match jsonParse metadata with
  | .error _ => none
  | .ok v =>
    match getField v "objectKey" with
    | .str k => if k = "" then none else some k
    | _ => none

/-- The object-storage `delete(key)` round trip, its success controlled by
the environment `blobOk`. -/
def tryBlobDelete (blobOk : String → Bool) (k : String) : Except String Unit :=
  if blobOk k then .ok () else .error "object storage delete failed"

/-- Result of `deleteItem`: the returned boolean, the table afterwards, and
the keys for which an object-storage delete was attempted. -/
structure DeleteResult where
  success : Bool
  rows : List Item
  blobAttempts : List String
deriving Repr

/-- `DatabaseStorage.deleteItem(id)`: fetch the row, run `DELETE ... WHERE
id`, then — when the fetched row is truthy with truthy `metadata` and
`type === 'file'` — parse the metadata and best-effort delete the blob
under `metadata.objectKey`; a failure of that inner step (parse or blob
delete) is caught and logged and does not change the returned value, which
is `rowCount > 0`. -/
def deleteItem (rows : List Item) (id : Nat) (blobOk : String → Bool) :
    DeleteResult :=
  let item := rows.find? (fun r => r.id == id)
  let rows' := rows.filter (fun r => r.id != id)
  let attempts :=
    match item with
    | some it =>
      match it.metadata with
      | some m =>
        if m ≠ "" ∧ it.type = "file" then
          match recoverObjectKey m with
          | some k =>
            match tryBlobDelete blobOk k with
            | .ok _ => [k]
            | .error _ => [k]
          | none => []
        else []
      | none => []
    | none => []
  { success := decide (0 < rows.countP (fun r => r.id == id)),
    rows := rows', blobAttempts := attempts }

/-- C3 (confirmed): `delete` of a nonexistent id returns `false` with the
table untouched and no blob call; `delete` of an existing `file` item whose
metadata yields a recoverable storage key removes the catalog row, attempts
exactly one object-storage delete for that key, and returns `true` for
every blob environment — also when the blob delete fails. -/
theorem deleteItem_semantics :
    (∀ (rows : List Item) (id : Nat) (blobOk : String → Bool),
        rows.find? (fun r => r.id == id) = none →
        deleteItem rows id blobOk =
          { success := false, rows := rows, blobAttempts := [] }) ∧
    (∀ (rows : List Item) (id : Nat) (blobOk : String → Bool)
        (it : Item) (m k : String),
        rows.find? (fun r => r.id == id) = some it →
        it.metadata = some m → m ≠ "" → it.type = "file" →
        recoverObjectKey m = some k →
        (deleteItem rows id blobOk).blobAttempts = [k] ∧
        (deleteItem rows id blobOk).success = true ∧
        (deleteItem rows id blobOk).rows = rows.filter (fun r => r.id != id)) := by
  constructor
  · intro rows id blobOk hfind
    have hall : ∀ r ∈ rows, ¬ ((fun r => r.id == id) r = true) :=
      List.find?_eq_none.mp hfind
    have hcount : rows.countP (fun r => r.id == id) = 0 := by
      rw [List.countP_eq_zero]
      intro a ha
      exact hall a ha
    have hfilter : rows.filter (fun r => r.id != id) = rows := by
      rw [List.filter_eq_self]
      intro a ha
      simpa using hall a ha
    simp [deleteItem, hfind, hcount, hfilter]
  · intro rows id blobOk it m k hfind hmeta hm htype hk
    have hmem : it ∈ rows := List.mem_of_find?_eq_some hfind
    have hit := List.find?_some hfind
    have hcount : 0 < rows.countP (fun r => r.id == id) :=
      List.countP_pos_iff.mpr ⟨it, hmem, hit⟩
    cases hbk : blobOk k <;>
      simp [deleteItem, hfind, hmeta, hm, htype, hk, tryBlobDelete, hbk, hcount]

/-- A concrete file row whose metadata is `{"objectKey":"u/1-a.txt"}`. -/
def fileRow : Item :=
  { baseItem with type := "file", metadata := some "\x7b\"objectKey\":\"u/1-a.txt\"\x7d" }

/-- C3 witness: a one-row catalog holding a file item with metadata
`{"objectKey":"u/1-a.txt"}` and an always-failing blob environment: the
delete still succeeds, removes the row, and attempted exactly that key;
and deleting an id absent from the empty catalog returns `false`. -/
theorem deleteItem_semantics_witness :
    (deleteItem [] 7 (fun _ => false) =
      { success := false, rows := [], blobAttempts := [] }) ∧
    ((deleteItem [fileRow] 1 (fun _ => false)).blobAttempts = ["u/1-a.txt"] ∧
     (deleteItem [fileRow] 1 (fun _ => false)).success = true ∧
     (deleteItem [fileRow] 1 (fun _ => false)).rows =
       [fileRow].filter (fun r => r.id != 1)) := by
  refine ⟨deleteItem_semantics.1 [] 7 (fun _ => false) rfl, ?_⟩
  exact deleteItem_semantics.2 [fileRow] 1 (fun _ => false) fileRow
    "\x7b\"objectKey\":\"u/1-a.txt\"\x7d" "u/1-a.txt"
    rfl rfl (by decide) rfl (by rfl)

/-- A validated insert draft (`InsertItem`): the item columns except `id`,
`userId`, `createdAt`, `updatedAt`. -/
structure InsertItem where
  title : String
  content : Option String
  type : String
  fileUrl : Option String
  fileName : Option String
  fileSize : Option Int
  mimeType : Option String
  tags : List String
  metadata : Option String
deriving DecidableEq, Repr

/-- `DatabaseStorage.createItem(userId, insertItem)`: insert
`{...insertItem, userId}` with a fresh serial id and `createdAt = updatedAt
= now`, returning the new row. -/
def createItem (rows : List Item) (nextId now : Nat) (userId : String)
    (ins : InsertItem) : Item × List Item :=
  let it : Item :=
    { id := nextId, userId := userId, title := ins.title,
      content := ins.content, type := ins.type, fileUrl := ins.fileUrl,
      fileName := ins.fileName, fileSize := ins.fileSize,
      mimeType := ins.mimeType, tags := ins.tags, metadata := ins.metadata,
      createdAt := now, updatedAt := now }
  (it, rows ++ [it])

/-- `getItems` with its surrounding `try`/`catch`: a failing database query
is caught, logged, and turned into the empty list. -/
def getItemsCaught (dbTry : Except String (List Item)) (u : String)
    (q ty : Option String) : List Item :=
  match dbTry with
  | .ok rows => getItems rows u q ty
  | .error _ => []

/-- `getItem` (`SELECT ... WHERE id`, first row) with its `try`/`catch`:
a failure is caught and becomes `undefined`. -/
def getItemCaught (dbTry : Except String (List Item)) (id : Nat) :
    Option Item :=
  match dbTry with
  | .ok rows => rows.find? (fun r => r.id == id)
  | .error _ => none

/-- `updateItem` with its `try`/`catch`: a failure is caught and becomes
`undefined` (indistinguishable from an unknown id). -/
def updateItemCaught (dbTry : Except String (List Item)) (id : Nat)
    (d : UpdateDraft) (now : Nat) : Option Item :=
  match dbTry with
  | .ok rows => (updateItem rows id d now).1
  | .error _ => none

/-- `deleteItem` with its outer `try`/`catch`: a failure is caught and
becomes `false` (indistinguishable from a nonexistent id). -/
def deleteItemCaught (dbTry : Except String (List Item)) (id : Nat)
    (blobOk : String → Bool) : Bool :=
  match dbTry with
  | .ok rows => (deleteItem rows id blobOk).success
  | .error _ => false

/-- `createItem` with its `try`/`catch`: the failure is logged and
re-thrown (`throw error`), so it propagates to the caller. -/
def createItemCaught (dbTry : Except String (List Item)) (nextId now : Nat)
    (userId : String) (ins : InsertItem) : Except String Item :=
  match dbTry with
  | .ok rows => .ok (createItem rows nextId now userId ins).1
  | .error e => .error e

/-- C7 (corrected, counterexample): a failing catalog query during `list`
is caught and returned as the empty list — exactly the result of a
successful `list` over an empty catalog — refuting the claim that read
failures are reported to the caller. -/
theorem getItemsCaught_swallows_counterexample :
    getItemsCaught (.error "database unreachable") "u" none none = ([] : List Item) ∧
    getItemsCaught (.ok []) "u" none none = ([] : List Item) :=
  ⟨rfl, rfl⟩

/-- C7 (corrected, amended): only `create` propagates a backing-store
failure to its caller; `list`, `get`, `update` and `delete` catch it and
report the empty list, `undefined`, `undefined` and `false` respectively —
each indistinguishable from a successful call on absent data. -/
theorem repository_failure_reporting :
    ∀ (e : String) (u : String) (q ty : Option String) (id nextId now : Nat)
      (d : UpdateDraft) (blobOk : String → Bool) (ins : InsertItem),
      getItemsCaught (.error e) u q ty = [] ∧
      getItemCaught (.error e) id = none ∧
      updateItemCaught (.error e) id d now = none ∧
      deleteItemCaught (.error e) id blobOk = false ∧
      createItemCaught (.error e) nextId now u ins = .error e := by
  intro e u q ty id nextId now d blobOk ins
  exact ⟨rfl, rfl, rfl, rfl, rfl⟩

/-- How the file-serving route's normalization fails: the three structured
`throw`s carrying a diagnostic (an empty/invalid `value` array, an
unrecognized first element, an unrecognized response shape), the wrapped
backend failure (`Object Storage error: <message>`), and an untyped
`TypeError` escaping from `Buffer.from` on a non-bufferable value. -/
inductive NormError where
  | emptyValue
  | valueFormat
  | responseFormat
  | backend (msg : String)
  | typeError
deriving DecidableEq, Repr

/-- One element of `Buffer.from(array)`: numbers are taken modulo 256,
`true` coerces to 1, and everything not coercible to a number (including
`null`, `undefined`, objects, and non-numeric strings) becomes 0. -/
def toByte : JsVal → Nat
  | .num n => (n % 256).toNat
  | .bool true => 1
  | _ => 0

/-- `Buffer.from(v)`: buffers are copied, arrays coerced elementwise,
strings encoded as UTF-8; other values throw a `TypeError` (array-like
plain objects are not modelled — nothing the backend returns is one). -/
def bufferFrom : JsVal → Except NormError (List Nat)
  | .buf bs => .ok bs
  | .arr xs => .ok (xs.map toByte)
  | .str s => .ok (s.toUTF8.toList.map (fun b => b.toNat))
  | _ => .error .typeError

/-- `fileResponse.error?.message || 'Unknown error'` (a non-string truthy
`message`, which the backend does not produce, is not modelled). -/
def errMessage (r : JsVal) : String :=
  match getField (getField r "error") "message" with
  | .str s => if s = "" then "Unknown error" else s
  | _ => "Unknown error"

/-- The byte-extraction chain of `app.get('/api/files/*')` over the
object-storage response, translated branch for branch from the source. -/
def normalize (r : JsVal) : Except NormError (List Nat) :=
  if truthy r && typeofObject r then
    if hasField r "ok" &&
        (match getField r "ok" with | .bool true => true | _ => false) &&
        hasField r "value" then
      match getField r "value" with
      | .arr (first :: rest) =>
        if truthy first && typeofObject first && hasField first "type" &&
            (match getField first "type" with
             | .str s => decide (s = "Buffer")
             | _ => false) &&
            hasField first "data" then
          bufferFrom (getField first "data")
        else
          match first with
          | .num _ => .ok ((first :: rest).map toByte)
          | _ => .error .valueFormat
      | _ => .error .emptyValue
    else if hasField r "ok" &&
        (match getField r "ok" with | .bool b => decide (b = false) | _ => false) then
      .error (.backend (errMessage r))
    else if hasField r "value" &&
        (match getField r "value" with | .arr _ => true | _ => false) then
      match getField r "value" with
      | .arr (b0 :: brest) =>
        if truthy b0 && typeofObject b0 && hasField b0 "data" then
          bufferFrom (getField b0 "data")
        else .ok ((b0 :: brest).map toByte)
      | .arr [] => .ok []
      | _ => .error .responseFormat
    else
      match r with
      | .buf bs => .ok bs
      | _ => .error .responseFormat
  else
    match r with
    | .buf bs => .ok bs
    | _ => .error .responseFormat

/-- C2 (corrected, counterexample): a success wrapper whose `value` is a
non-empty array headed by an *actual* byte buffer — one of the documented
shapes — is rejected with the unrecognized-first-element diagnostic instead
of yielding the buffer's bytes (the code recognizes only the tagged
`{type:'Buffer', data}` form there); and the *unwrapped* empty value array
yields empty bytes successfully instead of a malformed-response failure. -/
theorem normalize_counterexample :
    normalize (.obj [("ok", .bool true), ("value", .arr [.buf [1, 2, 3]])]) =
      .error .valueFormat ∧
    normalize (.obj [("value", .arr [])]) = .ok [] :=
  ⟨rfl, rfl⟩

/-- C2 (corrected, amended): the normalization behaves as follows on the
response families — a direct byte buffer is returned as is; a success
wrapper whose value array is headed by a tagged `{type:'Buffer', data}`
object yields the bytes rebuilt from `data`; a success wrapper whose value
array is headed by a number yields the coerced bytes of that array; a
failure wrapper yields a backend error carrying the wrapped message; an
unwrapped value array yields bytes from a tagged head's `data` or from the
raw array, the empty unwrapped array yielding empty bytes; and a success
wrapper with an empty or non-array value, a wrapper with no value at all,
the empty object, and primitive responses all fail with a
malformed-response diagnostic. -/
theorem normalize_shapes :
    (∀ bs : List Nat, normalize (.buf bs) = .ok bs) ∧
    (∀ (ds rest : List JsVal),
        normalize (.obj [("ok", .bool true),
          ("value", .arr (.obj [("type", .str "Buffer"), ("data", .arr ds)] :: rest))]) =
          .ok (ds.map toByte)) ∧
    (∀ (n : Int) (rest : List JsVal),
        normalize (.obj [("ok", .bool true), ("value", .arr (.num n :: rest))]) =
          .ok ((JsVal.num n :: rest).map toByte)) ∧
    (∀ m : String, m ≠ "" →
        normalize (.obj [("ok", .bool false), ("error", .obj [("message", .str m)])]) =
          .error (.backend m)) ∧
    (∀ (ds rest : List JsVal),
        normalize (.obj [("value", .arr (.obj [("data", .arr ds)] :: rest))]) =
          .ok (ds.map toByte)) ∧
    (∀ (n : Int) (rest : List JsVal),
        normalize (.obj [("value", .arr (.num n :: rest))]) =
          .ok ((JsVal.num n :: rest).map toByte)) ∧
    (normalize (.obj [("ok", .bool true), ("value", .arr [])]) =
      .error .emptyValue) ∧
    (∀ s : String, normalize (.obj [("ok", .bool true), ("value", .str s)]) =
      .error .emptyValue) ∧
    (normalize (.obj [("ok", .bool true)]) = .error .responseFormat) ∧
    (normalize (.obj []) = .error .responseFormat) ∧
    (normalize .null = .error .responseFormat) ∧
    (∀ n : Int, normalize (.num n) = .error .responseFormat) := by
  refine ⟨fun bs => rfl, fun ds rest => rfl, ?_, ?_, fun ds rest => rfl, ?_,
    rfl, fun s => rfl, rfl, rfl, rfl, ?_⟩
  · intro n rest
    simp [normalize, truthy, typeofObject, hasField, getField]
  · intro m hm
    simp [normalize, errMessage, hasField, getField, truthy, typeofObject, hm]
  · intro n rest
    simp [normalize, truthy, typeofObject, hasField, getField]
  · intro n
    simp [normalize, truthy, typeofObject]

/-- C2 witness: the failure-wrapper component of the amended statement at
the concrete message `boom`. -/
theorem normalize_shapes_witness :
    normalize (.obj [("ok", .bool false), ("error", .obj [("message", .str "boom")])]) =
      .error (.backend "boom") :=
  normalize_shapes.2.2.2.1 "boom" (by decide)

/-- The row predicate of `getItemByObjectKey`:
`ilike(metadata, '%"objectKey":"<objectKey>"%')`. -/
def objectKeyMatcher (objectKey : String) (it : Item) : Bool :=
  match it.metadata with
  | some m => ilikeMatch ("%\"objectKey\":\"" ++ objectKey ++ "\"%").data m.data
  | none => false

/-- `DatabaseStorage.getItemByObjectKey(objectKey)`: the first row whose
raw metadata text matches the ILIKE pattern built from the key. -/
def getItemByObjectKey (rows : List Item) (objectKey : String) : Option Item :=
  rows.find? (objectKeyMatcher objectKey)

/-- The observable part of the HTTP response built by the file-serving
route. -/
structure HttpResp where
  status : Nat
  contentType : Option String
  disposition : Option String
  cacheControl : Option String
  contentLength : Option Nat
  body : Option (List Nat)
  message : Option String
deriving DecidableEq, Repr

/-- The `catch` response of the file route: `404 {message: "File not
found"}`, with no internal error detail. -/
def notFoundResp : HttpResp :=
  { status := 404, contentType := none, disposition := none,
    cacheControl := none, contentLength := none, body := none,
    message := some "File not found" }

/-- A successful file response: the bytes with the computed headers. -/
def okResp (ct disp : Option String) (bs : List Nat) : HttpResp :=
  { status := 200, contentType := ct, disposition := disp,
    cacheControl := some "no-cache", contentLength := some bs.length,
    body := some bs, message := none }

/-- `app.get('/api/files/*')`: normalize the downloaded response (any throw
is caught into the 404), look the item up by object key, set `Content-Type`
only when the item resolved with a `mimeType`, set `Content-Disposition`
only when the item resolved with a `fileName` (attachment for
`action=download`, inline otherwise, `preview` being the default for an
absent or empty `action`), always disable caching and set the byte
length. -/
def filesHandler (resp : JsVal) (rows : List Item) (fileKey : String)
    (action : Option String) : HttpResp :=
  match normalize resp with
  | .error _ => notFoundResp
  | .ok bs =>
    let item := getItemByObjectKey rows fileKey
    let ct : Option String :=
      match item with
      | some it => it.mimeType
      | none => none
    let act : String :=
      match action with
      | some a => if a ≠ "" then a else "preview"
      | none => "preview"
    let disp : Option String :=
      match item with
      | some it =>
        match it.fileName with
        | some fn =>
          if act = "download" then some ("attachment; filename=\"" ++ fn ++ "\"")
          else some ("inline; filename=\"" ++ fn ++ "\"")
        | none => none
      | none => none
    okResp ct disp bs

/-- A concrete file row with mime type and file name, whose metadata is
`{"objectKey":"k1"}`. -/
def servedRow : Item :=
  { baseItem with
      type := "file"
      mimeType := some "text/plain"
      fileName := some "a.txt"
      metadata := some "\x7b\"objectKey\":\"k1\"\x7d" }

/-- C9 (corrected, counterexample): with a resolvable blob but no catalog
row for the key, the route serves the bytes with status 200 (and no
content-type or disposition header) instead of the claimed not-found
response. -/
theorem filesHandler_counterexample :
    (filesHandler (.buf [1]) [] "k" none).status = 200 ∧
    getItemByObjectKey ([] : List Item) "k" = none ∧
    filesHandler (.buf [1]) [] "k" none ≠ notFoundResp := by
  exact ⟨rfl, rfl, by decide⟩

/-- C9 (corrected, amended): when the blob resolves and the catalog row
resolves with a mime type and file name, the response carries status 200,
`Content-Type` from the mime type, `Content-Disposition`
`attachment; filename="<fileName>"` exactly for `action=download` and
`inline; filename="<fileName>"` otherwise (preview being the default),
`Cache-Control: no-cache`, and `Content-Length` equal to the byte count;
when the blob cannot be resolved the response is the 404 not-found without
internal error detail; when only the catalog row is missing the bytes are
still served with status 200 and no content-type or disposition header. -/
theorem filesHandler_headers :
    (∀ (resp : JsVal) (rows : List Item) (k : String) (action : Option String)
        (bs : List Nat) (it : Item) (mt fn : String),
        normalize resp = .ok bs →
        getItemByObjectKey rows k = some it →
        it.mimeType = some mt → it.fileName = some fn →
        filesHandler resp rows k action =
          okResp (some mt)
            (some ((if action = some "download" then "attachment" else "inline") ++
              "; filename=\"" ++ fn ++ "\"")) bs) ∧
    (∀ (resp : JsVal) (rows : List Item) (k : String) (action : Option String)
        (e : NormError),
        normalize resp = .error e →
        filesHandler resp rows k action = notFoundResp) ∧
    (∀ (resp : JsVal) (rows : List Item) (k : String) (action : Option String)
        (bs : List Nat),
        normalize resp = .ok bs →
        getItemByObjectKey rows k = none →
        filesHandler resp rows k action = okResp none none bs) := by
  refine ⟨?_, ?_, ?_⟩
  · intro resp rows k action bs it mt fn hnorm hitem hmt hfn
    cases action with
    | none => simp [filesHandler, hnorm, hitem, hmt, hfn]
    | some a =>
      by_cases ha : a = ""
      · subst ha
        simp [filesHandler, hnorm, hitem, hmt, hfn]
      · by_cases had : a = "download"
        · subst had
          simp [filesHandler, hnorm, hitem, hmt, hfn]
        · simp [filesHandler, hnorm, hitem, hmt, hfn, ha, had]
  · intro resp rows k action e hnorm
    simp [filesHandler, hnorm]
  · intro resp rows k action bs hnorm hitem
    simp [filesHandler, hnorm, hitem]

/-- C9 witness: the amended statement at a concrete resolved row and a
direct-buffer blob response, for a download action. -/
theorem filesHandler_headers_witness :
    filesHandler (.buf [1, 2]) [servedRow] "k1" (some "download") =
      okResp (some "text/plain")
        (some ("attachment" ++ "; filename=\"" ++ "a.txt" ++ "\"")) [1, 2] := by
  have h := filesHandler_headers.1 (.buf [1, 2]) [servedRow] "k1"
    (some "download") [1, 2] servedRow "text/plain" "a.txt" rfl (by decide) rfl rfl
  simpa using h

/-- A multipart upload as seen by the file route (`req.file`). -/
structure UploadedFile where
  originalname : String
  size : Int
  mimetype : String
  buffer : List Nat
deriving DecidableEq, Repr

/-- The object key generated by the upload route:
`${userId}/${Date.now()}-${req.file.originalname}`. -/
def mkFileKey (userId : String) (nowMs : Nat) (originalname : String) : String :=
  userId ++ "/" ++ toString nowMs ++ "-" ++ originalname

/-- `app.post('/api/items/file')` (object-storage variant): generate the
key, upload the bytes (the blob write has no bearing on the catalog and is
not tracked here), and create the catalog row with
`metadata = JSON.stringify({ objectKey: fileKey })`. -/
def uploadFileRoute (rows : List Item) (nextId now : Nat) (userId : String)
    (nowMs : Nat) (f : UploadedFile) (tags : List String) : Item × List Item :=
  let fileKey := mkFileKey userId nowMs f.originalname
  let fileUrl := "/api/files/" ++ fileKey
  createItem rows nextId now userId
    { title := f.originalname, content := none, type := "file",
      fileUrl := some fileUrl, fileName := some f.originalname,
      fileSize := some f.size, mimeType := some f.mimetype, tags := tags,
      metadata := some (stringifyObjectKey fileKey) }

/-- A key character that is inert for both JSON string escaping and LIKE
pattern matching: not a wildcard, not the LIKE/JSON escape backslash, not a
double quote, not a control character. -/
def plainKeyChar (c : Char) : Bool :=
  decide (c ≠ '%' ∧ c ≠ '_' ∧ c ≠ '\\' ∧ c ≠ '"' ∧ 32 ≤ c.toNat)

def plainKey (k : String) : Bool := k.data.all plainKeyChar

/-- The preconditions the original claim places on the key: no LIKE
wildcard (`%`, `_`) and no double quote. -/
def claimKeyPre (k : String) : Bool :=
  k.data.all (fun c => decide (c ≠ '%' ∧ c ≠ '_' ∧ c ≠ '"'))

theorem jsonEscapeChar_plain (c : Char) (hq : c ≠ '"') (hb : c ≠ '\\')
    (h32 : 32 ≤ c.toNat) : jsonEscapeChar c = [c] := by
  have h1 : c ≠ '\n' := by rintro rfl; exact absurd h32 (by decide)
  have h2 : c ≠ '\r' := by rintro rfl; exact absurd h32 (by decide)
  have h3 : c ≠ '\t' := by rintro rfl; exact absurd h32 (by decide)
  have h4 : c ≠ Char.ofNat 8 := by rintro rfl; exact absurd h32 (by decide)
  have h5 : c ≠ Char.ofNat 12 := by rintro rfl; exact absurd h32 (by decide)
  have h6 : ¬ c.toNat < 32 := by omega
  simp [jsonEscapeChar, hq, hb, h1, h2, h3, h4, h5, h6]

theorem jsonEscapeList_plain : ∀ l : List Char, l.all plainKeyChar = true →
    jsonEscapeList l = l := by
  intro l h
  induction l with
  | nil => rfl
  | cons c cs ih =>
    rw [List.all_cons, Bool.and_eq_true] at h
    obtain ⟨hc, hcs⟩ := h
    rw [plainKeyChar, decide_eq_true_eq] at hc
    obtain ⟨_, _, h3, h4, h5⟩ := hc
    rw [jsonEscapeList, jsonEscapeChar_plain c h4 h3 h5, ih hcs]
    rfl

theorem plainChars_append : ∀ l1 l2 : List Char, plainChars l1 = true →
    plainChars l2 = true → plainChars (l1 ++ l2) = true := by
  intro l1 l2 h1 h2
  induction l1 with
  | nil => exact h2
  | cons c cs ih =>
    by_cases hb : c = '%' ∨ c = '_' ∨ c = '\\'
    · rw [plainChars, if_pos hb] at h1
      exact absurd h1 Bool.false_ne_true
    · rw [plainChars, if_neg hb] at h1
      rw [List.cons_append, plainChars, if_neg hb]
      exact ih h1

theorem plainKey_plainChars : ∀ l : List Char, l.all plainKeyChar = true →
    plainChars l = true := by
  intro l h
  induction l with
  | nil => rfl
  | cons c cs ih =>
    rw [List.all_cons, Bool.and_eq_true] at h
    obtain ⟨hc, hcs⟩ := h
    rw [plainKeyChar, decide_eq_true_eq] at hc
    obtain ⟨h1, h2, h3, _, _⟩ := hc
    rw [plainChars, if_neg (by tauto)]
    exact ih hcs

theorem prefixCI_self_append : ∀ q b : List Char, prefixCI q (q ++ b) = true := by
  intro q b
  induction q with
  | nil => rfl
  | cons a q' ih => simp [prefixCI, ih]

theorem containsCI_self_append : ∀ q b : List Char, containsCI q (q ++ b) = true := by
  intro q b
  cases q with
  | nil => cases b <;> simp [containsCI, prefixCI]
  | cons a q' =>
    rw [List.cons_append, containsCI, Bool.or_eq_true]
    exact Or.inl (by simpa using prefixCI_self_append (a :: q') b)

theorem containsCI_cons_of (q ts : List Char) (c : Char)
    (h : containsCI q ts = true) : containsCI q (c :: ts) = true := by
  simp [containsCI, h]

theorem objectKeyMatcher_stringify (k : String) (hk : plainKey k = true) :
    ilikeMatch ("%\"objectKey\":\"" ++ k ++ "\"%").data
      (stringifyObjectKey k).data = true := by
  have hesc : (jsonEscape k).data = k.data := jsonEscapeList_plain k.data hk
  have hq : plainChars ("\"objectKey\":\"".data ++ k.data ++ ['"']) = true :=
    plainChars_append _ _
      (plainChars_append _ _ (by decide) (plainKey_plainChars k.data hk))
      (by decide)
  have hpat : ("%\"objectKey\":\"" ++ k ++ "\"%").data =
      '%' :: (("\"objectKey\":\"".data ++ k.data ++ ['"']) ++ ['%']) := by
    rw [String.data_append, String.data_append]
    have hlit : ("%\"objectKey\":\"" : String).data =
        '%' :: ("\"objectKey\":\"" : String).data := by decide
    have hlit2 : ("\"%" : String).data = ['"', '%'] := by decide
    rw [hlit, hlit2]
    simp
  have henc : (stringifyObjectKey k).data =
      Char.ofNat 123 ::
        ((("\"objectKey\":\"".data ++ k.data ++ ['"']) ++ [Char.ofNat 125])) := by
    rw [stringifyObjectKey, String.data_append, String.data_append, hesc]
    have hlit : ("\x7b\"objectKey\":\"" : String).data =
        Char.ofNat 123 :: ("\"objectKey\":\"" : String).data := by decide
    have hlit2 : ("\"\x7d" : String).data = ['"', Char.ofNat 125] := by decide
    rw [hlit, hlit2]
    simp
  rw [hpat, henc, ilike_contains _ hq]
  exact containsCI_cons_of _ _ _ (containsCI_self_append _ _)

/-- C10 (corrected, amended): for a file item created through the
object-storage upload route with key `k`, `getItemByObjectKey(k)` returns
that item, provided `k` contains no LIKE wildcard (`%`, `_`), no double
quote, *no backslash and no control character* (so that JSON escaping
leaves it unchanged and LIKE escape processing does not fire), and no
already-stored row's metadata matches the key's ILIKE pattern. -/
theorem upload_lookup_roundtrip :
    ∀ (rows : List Item) (nextId now : Nat) (userId : String) (nowMs : Nat)
      (f : UploadedFile) (tags : List String) (fileKey : String),
      fileKey = mkFileKey userId nowMs f.originalname →
      plainKey fileKey = true →
      (∀ r ∈ rows, objectKeyMatcher fileKey r = false) →
      getItemByObjectKey (uploadFileRoute rows nextId now userId nowMs f tags).2
          fileKey =
        some (uploadFileRoute rows nextId now userId nowMs f tags).1 := by
  intro rows nextId now userId nowMs f tags fileKey hkey hplain huniq
  subst hkey
  have hsplit : (uploadFileRoute rows nextId now userId nowMs f tags).2 =
      rows ++ [(uploadFileRoute rows nextId now userId nowMs f tags).1] := rfl
  rw [getItemByObjectKey, hsplit, List.find?_append]
  have h1 : rows.find? (objectKeyMatcher (mkFileKey userId nowMs f.originalname)) =
      none := by
    rw [List.find?_eq_none]
    intro r hr
    simp [huniq r hr]
  have hmeta : (uploadFileRoute rows nextId now userId nowMs f tags).1.metadata =
      some (stringifyObjectKey (mkFileKey userId nowMs f.originalname)) := rfl
  have hmatch : objectKeyMatcher (mkFileKey userId nowMs f.originalname)
      (uploadFileRoute rows nextId now userId nowMs f tags).1 = true := by
    rw [objectKeyMatcher, hmeta]
    exact objectKeyMatcher_stringify _ hplain
  rw [h1]
  simp [List.find?_cons, hmatch]

/-- The concrete upload whose original name contains one backslash. -/
def fileWithBackslash : UploadedFile :=
  { originalname := "a\\b.txt", size := 1, mimetype := "text/plain", buffer := [] }

/-- C10 (corrected, counterexample): the key `u/7-a\b.txt` satisfies the
claim's stated preconditions (no `%`, `_` or `"`, and an otherwise empty
catalog), yet looking it up right after the upload finds nothing:
`JSON.stringify` stored the backslash doubled while the ILIKE pattern
treats the single backslash as its escape character. -/
theorem upload_lookup_counterexample :
    claimKeyPre (mkFileKey "u" 7 "a\\b.txt") = true ∧
    getItemByObjectKey (uploadFileRoute [] 1 0 "u" 7 fileWithBackslash []).2
        (mkFileKey "u" 7 "a\\b.txt") = none := by
  exact ⟨by decide, by decide⟩

/-- The concrete upload with an inert original name. -/
def plainUpload : UploadedFile :=
  { originalname := "ok.txt", size := 1, mimetype := "text/plain", buffer := [] }

/-- C10 witness: the amended round trip evaluated for the key
`u/7-ok.txt` over an empty catalog. -/
theorem upload_lookup_roundtrip_witness :
    getItemByObjectKey (uploadFileRoute [] 1 0 "u" 7 plainUpload []).2
        (mkFileKey "u" 7 "ok.txt") =
      some (uploadFileRoute [] 1 0 "u" 7 plainUpload []).1 :=
  upload_lookup_roundtrip [] 1 0 "u" 7 plainUpload [] (mkFileKey "u" 7 "ok.txt")
    rfl (by decide) (fun r hr => absurd hr (List.not_mem_nil r))

/-- The contact fields a decode site extracts from the metadata payload. -/
structure ContactFields where
  email : String
  phone : String
  company : String
  role : String
deriving DecidableEq, Repr

/-- The empty-shaped contact payload. -/
def emptyContactFields : ContactFields :=
  { email := "", phone := "", company := "", role := "" }

/-- `v[k] || ""`: absent, non-object or empty values give the empty string
(non-string truthy field values, which no create path writes, are not
modelled). -/
def strFieldOr (v : JsVal) (k : String) : String :=
  match getField v k with
  | .str s => s
  | _ => ""

/-- `ContactModal`'s `useEffect` decode: a truthy metadata text is
`JSON.parse`d inside `try`/`catch`; on failure the fields keep their empty
initial state. -/
def contactModalLoad (metadata : Option String) : ContactFields :=
  match metadata with
  | none => emptyContactFields
  | some m =>
    if m = "" then emptyContactFields
    else
      match jsonParse m with
      | .error _ => emptyContactFields
      | .ok v =>
        { email := strFieldOr v "email", phone := strFieldOr v "phone",
          company := strFieldOr v "company", role := strFieldOr v "role" }

/-- The copy text `ItemCard.handleCopy` builds for a contact: the four
fields, falsy ones dropped, joined by newlines. -/
def contactCopyText (v : JsVal) : String :=
  String.intercalate "\n"
    (([strFieldOr v "email", strFieldOr v "phone", strFieldOr v "company",
       strFieldOr v "role"]).filter (fun s => s ≠ ""))

/-- `ItemCard.handleCopy` on a contact item:
`item.metadata ? JSON.parse(item.metadata) : {}` with *no* `try`/`catch` —
a parse failure is the thrown `SyntaxError` escaping the handler. -/
def itemCardCopyContact (metadata : Option String) : Except Unit String :=
  match metadata with
  | none => .ok (contactCopyText (.obj []))
  | some m =>
    if m = "" then .ok (contactCopyText (.obj []))
    else
      match jsonParse m with
      | .error e => .error e
      | .ok v => .ok (contactCopyText v)

/-- C8 (code_bug): decoding the metadata text `not json` in
`ItemCard.handleCopy` raises (the `SyntaxError` of the unguarded
`JSON.parse` propagates out of the decode), while the guarded decode in
`ContactModal.useEffect` degrades to the empty-shaped payload as the claim
requires — the unguarded site contradicts the decode-totality the
specification states and the sibling components implement. -/
theorem metadata_decode_totality :
    itemCardCopyContact (some "not json") = .error () ∧
    contactModalLoad (some "not json") = emptyContactFields ∧
    itemCardCopyContact (some "\x7b\x7d") = .ok "" := by
  exact ⟨rfl, rfl, rfl⟩

end InfoSpace
